import Mathlib

/-!
Frontend-Practice: bounded counter, currency converter, blog service

A shallow embedding of the event handlers of three exercises of the repository:

* `02counter/src/App.jsx`: the counter component (`addValue`, `removeValue`, the derived
  `color`);
* `06currencyConverter/src/App.jsx`: the handlers `swap` and `convert`;
* `12MegaBlog/src/appwrite/config.js`: the `Service` class wrapping the backend SDK.

React state is made explicit: a handler is a function from the state captured by the current
render to the state of the next render. JavaScript numbers are binary64 values: the result of
an arithmetic operation is the exact result rounded to the nearest binary64 value, a tie going
to the even significand.
-/

set_option autoImplicit false

namespace Binary64

/-- The exponent `q` of the unit in the last place of the binary64 format at `x ≠ 0`: with
`2^e ≤ |x| < 2^(e+1)` the 53-bit significand ends at `2^(e-52)`, and below the normal range
(`e < -1022`) at `2^-1074`. -/
def ulpExponent (x : ℚ) : ℤ := max (Int.log 2 |x|) (-1022) - 52

/-- The integer nearest to `y`, the even one of two. -/
def roundHalfEven (y : ℚ) : ℤ :=
  if y - ⌊y⌋ < 1 / 2 then ⌊y⌋
  else if 1 / 2 < y - ⌊y⌋ then ⌊y⌋ + 1
  else if ⌊y⌋ % 2 = 0 then ⌊y⌋ else ⌊y⌋ + 1

/-- Rounding to nearest, ties to even, with 53 bits of precision and the exponent bounded
below as in binary64: the multiple of `2^(ulpExponent x)` nearest to `x`. The upper bound of
the exponent range (overflow to an infinity) is applied by the caller. -/
def nearest64 (x : ℚ) : ℚ :=
  if x = 0 then 0
  else (if x < 0 then -1 else 1) * (roundHalfEven (|x| / 2 ^ ulpExponent x) : ℚ) *
    2 ^ ulpExponent x

end Binary64

namespace Counter

/-- The initial state of the component: `useState(0)`. -/
def initialCount : Int := 0

/-- The sum `a + b` of two numbers that hold integers: the exact sum rounded to binary64.
The rounded value of an integer is an integer, which the floor returns as such. Adding 1 to
a finite number never overflows. -/
def add (a b : Int) : Int := ⌊Binary64.nearest64 ((a + b : Int) : ℚ)⌋

/-- The difference `a - b` of two numbers that hold integers: the exact difference rounded
to binary64. -/
def sub (a b : Int) : Int := ⌊Binary64.nearest64 ((a - b : Int) : ℚ)⌋

/-- The handler `addValue`: `if (count < 20) setCount(count + 1)`; without a call of
`setCount` the state of the next render is the one of this render. The state `count` is a
number that holds an integer. -/
def addValue (count : Int) : Int :=
  if count < 20 then add count 1 else count

/-- The handler `removeValue`: `if (count > 0) setCount(count - 1)`. -/
def removeValue (count : Int) : Int :=
  if count > 0 then sub count 1 else count

/-- The derived colour, four statements executed in order on every render:
`let color = "black"`, `if (count > 0) color = "green"`, `if (count === 20) color = "red"`,
`if (count === 0) color = "orange"`. -/
def color (count : Int) : String :=
  let c0 := "black"
  let c1 := if count > 0 then "green" else c0
  let c2 := if count = 20 then "red" else c1
  let c3 := if count = 0 then "orange" else c2
  c3

/-- The two buttons of the component. -/
inductive Click where
  | increment
  | decrement
  deriving DecidableEq, Repr

/-- The handler bound to a button (`onClick={addValue}`, `onClick={removeValue}`). -/
def onClick : Click → Int → Int
  | Click.increment => addValue
  | Click.decrement => removeValue

/-- The count after a sequence of clicks, each handled in the render that follows the
previous one. -/
def run (count : Int) (clicks : List Click) : Int :=
  clicks.foldl (fun c k => onClick k c) count

/-- The property of the counter value stated by the data model. -/
def InRange (count : Int) : Prop := 0 ≤ count ∧ count ≤ 20

instance (count : Int) : Decidable (InRange count) :=
  inferInstanceAs (Decidable (0 ≤ count ∧ count ≤ 20))

end Counter

namespace Converter

/-- A JavaScript number: `NaN`, an infinity with its sign, or a finite binary64 value. The
two zeros are one value here: the handlers only multiply numbers, test them for truthiness
and print them with `toFixed`, and none of these tells `-0` from `0`. -/
inductive Num where
  | nan
  | inf (neg : Bool)
  | fin (x : ℚ)
  deriving DecidableEq

/-- The binary64 number for the exact value `x`: rounded to nearest, an infinity when the
rounded magnitude reaches `2^1024`. -/
def round64 (x : ℚ) : Num :=
  if 2 ^ 1024 ≤ |Binary64.nearest64 x| then Num.inf (decide (x < 0))
  else Num.fin (Binary64.nearest64 x)

/-- The product `x * y` of two numbers. -/
def Num.mul : Num → Num → Num
  | Num.nan, _ => Num.nan
  | _, Num.nan => Num.nan
  | Num.inf a, Num.inf b => Num.inf (a != b)
  | Num.inf a, Num.fin y => if y = 0 then Num.nan else Num.inf (a != decide (y < 0))
  | Num.fin x, Num.inf b => if x = 0 then Num.nan else Num.inf (decide (x < 0) != b)
  | Num.fin x, Num.fin y => round64 (x * y)

/-- Truthiness of a number, `ToBoolean`: `NaN` and zero are falsy. -/
def Num.toBoolean : Num → Bool
  | Num.nan => false
  | Num.inf _ => true
  | Num.fin x => decide (x ≠ 0)

/-- The text of a number as `Number.prototype.toFixed` produces it, kept as the data that
determines its characters: `fixed neg n f` is the sign, the digits of `n` and a point before
the last `f` digits (see `renderFixed`); `ofNumber x` is the text `ToString(x)`, which
`toFixed` returns for `NaN` ("NaN"), for the infinities ("Infinity", "-Infinity") and for a
magnitude of at least `10^21` (exponent form, as in "8.3e+22"). -/
inductive NumText where
  | fixed (neg : Bool) (n : Nat) (f : Nat)
  | ofNumber (x : Num)
  deriving DecidableEq

/-- A value held by the state cells `amount` and `convertedAmount`: a number
(`useState(0)`, `+e.target.value`) or a string made by `toFixed`. -/
inductive Val where
  | num (x : Num)
  | str (t : NumText)
  deriving DecidableEq

/-- The four state cells of the converter component. -/
structure State where
  amount : Val
  «from» : String
  «to» : String
  convertedAmount : Val
  deriving DecidableEq

/-- The initial state: `useState(0)`, `useState("usd")`, `useState("inr")`, `useState(0)`. -/
def initialState : State :=
  { amount := Val.num (Num.fin 0), «from» := "usd", «to» := "inr",
    convertedAmount := Val.num (Num.fin 0) }

/-- The object returned by the hook `useCurrencyInfo(from)`, given by its own properties:
currency code to numeric rate. The hook is not part of the sources; its result is a parameter
of `convert`, taken to be a plain object (an object literal or parsed JSON). -/
abbrev CurrencyInfo := List (String × Num)

/-- The result of a property read on the object of rates. -/
inductive Property where
  | undefined
  | number (x : Num)
  | inherited
  deriving DecidableEq

/-- The property names every plain object inherits from `Object.prototype`: eleven functions
and the accessor `__proto__`, whose value is the prototype object. -/
def objectPrototypeKeys : List String :=
  ["constructor", "hasOwnProperty", "isPrototypeOf", "propertyIsEnumerable",
   "toLocaleString", "toString", "valueOf", "__proto__", "__defineGetter__",
   "__defineSetter__", "__lookupGetter__", "__lookupSetter__"]

/-- Property access `currencyInfo[key]`: an own property first, then the prototype chain,
and `undefined` when neither has the key. -/
def CurrencyInfo.get (currencyInfo : CurrencyInfo) (key : String) : Property :=
  match currencyInfo.lookup key with
  | some x => Property.number x
  | none => if key ∈ objectPrototypeKeys then Property.inherited else Property.undefined

/-- Truthiness of a property value: `undefined` is falsy, a function or object is truthy. -/
def Property.toBoolean : Property → Bool
  | Property.undefined => false
  | Property.number x => x.toBoolean
  | Property.inherited => true

/-- The numeric value of a property value, `ToNumber`: `undefined`, a function and the
prototype object all convert to `NaN`. -/
def Property.toNumber : Property → Num
  | Property.undefined => Num.nan
  | Property.number x => x
  | Property.inherited => Num.nan

/-- The characters of `fixed neg n f`, as `toFixed` builds them: the decimal digits of `n`,
padded on the left with zeros to `f + 1` characters, a point before the last `f` of them when
`f ≠ 0`, and a leading minus sign for a negative number. -/
def renderFixed (neg : Bool) (n f : Nat) : String :=
  let m := Nat.toDigits 10 n
  let m := if m.length ≤ f then List.replicate (f + 1 - m.length) '0' ++ m else m
  let k := m.length
  let body := if f ≠ 0 then String.mk (m.take (k - f)) ++ "." ++ String.mk (m.drop (k - f))
    else String.mk m
  (if neg then "-" else "") ++ body

/-- The exact value a fixed text with sign `neg`, digits `n` and `f` decimals spells. -/
def fixedValue (neg : Bool) (n f : Nat) : ℚ :=
  (if neg then -1 else 1) * (n : ℚ) / 10 ^ f

/-- The numeric value of a text, `StringToNumber`: the binary64 number nearest to the value
a fixed text spells, and `x` itself for the text `ToString(x)`. -/
def NumText.toNumber : NumText → Num
  | NumText.fixed neg n f => round64 (fixedValue neg n f)
  | NumText.ofNumber x => x

/-- The numeric value of a state cell, `ToNumber`. -/
def toNumber : Val → Num
  | Val.num x => x
  | Val.str t => t.toNumber

/-- The method `x.toFixed(f)`: a number that is not finite is printed by `ToString`; the sign
of a finite one is split off; a magnitude of at least `10^21` is printed by `ToString` too;
otherwise `n` is the integer for which `n / 10^f - |x|` is closest to zero, the larger one of
two. -/
def toFixed (x : Num) (f : Nat) : NumText :=
  match x with
  | Num.fin v =>
    let neg := decide (v < 0)
    let av := if v < 0 then -v else v
    if av ≥ 10 ^ 21 then NumText.ofNumber x
    else NumText.fixed neg ⌊av * 10 ^ f + 1 / 2⌋.toNat f
  | _ => NumText.ofNumber x

/-- The handler `swap`: four setter calls, all reading the cells of the current render. -/
def swap (s : State) : State :=
  { «from» := s.«to», «to» := s.«from», amount := s.convertedAmount,
    convertedAmount := s.amount }

/-- The handler `convert`: `if (!currencyInfo[to]) return`, then
`setConvertedAmount((amount * currencyInfo[to]).toFixed(2))`, the product being taken of the
numeric values of both operands. -/
def convert (currencyInfo : CurrencyInfo) (s : State) : State :=
  if (currencyInfo.get s.«to»).toBoolean then
    { s with convertedAmount :=
        Val.str (toFixed ((toNumber s.amount).mul (currencyInfo.get s.«to»).toNumber) 2) }
  else s

/-- The rate table `{inr: 83}`. -/
def exampleRates : CurrencyInfo := [("inr", Num.fin 83)]

/-- The initial state after the amount `100` has been typed. -/
def exampleState : State := { initialState with amount := Val.num (Num.fin 100) }

/-- The initial state after the amount `1e21` has been typed. -/
def hugeState : State := { initialState with amount := Val.num (Num.fin (10 ^ 21)) }

/-- The number the literal `134.042` denotes: the binary64 value nearest to 134.042, which
is `4716183603531219 / 2^45`. -/
def rate134042 : ℚ := 4716183603531219 / 35184372088832

/-- The rate table `{inr: 134.042}`. -/
def roundingRates : CurrencyInfo := [("inr", Num.fin rate134042)]

/-- The initial state after the amount `132.5` has been typed. -/
def roundingState : State := { initialState with amount := Val.num (Num.fin (265 / 2)) }

/-- The initial state after the target currency has been set to `"toString"`, a key the rate
table `{inr: 83}` does not have, and the amount `100` has been typed. -/
def inheritedState : State := { exampleState with «to» := "toString" }

end Converter

namespace Blog

/-- The settings imported from `../config/config`, a module that is not part of the sources:
they are a parameter of the service. -/
structure Config where
  appwriteUrl : String
  appwriteProjectId : String
  appwriteDatabaseId : String
  appwriteCollectionId : String
  appwriteBucketId : String

/-- A query of the SDK, as built by `Query.equal(attr, value)`. -/
inductive Query where
  | equal (attr value : String)
  deriving DecidableEq

/-- The `data` object passed to `createDocument` and `updateDocument`; `updatePost` passes no
`userId`. -/
structure DocumentData where
  title : String
  content : String
  featuredImage : String
  status : String
  userId : Option String

/-- The SDK object `new Databases(client)`. A call either succeeds with a value of type `Obj`
or fails with an error of type `Err` (a rejected promise). -/
structure Databases (Err Obj : Type) where
  createDocument : (databaseId collectionId documentId : String) → DocumentData → Except Err Obj
  updateDocument : (databaseId collectionId documentId : String) → DocumentData → Except Err Obj
  deleteDocument : (databaseId collectionId documentId : String) → Except Err Obj
  getDocument : (databaseId collectionId documentId : String) → Except Err Obj
  listDocuments : (databaseId collectionId : String) → List Query → Except Err Obj

/-- The SDK object `new Storage(client)`; `File` is the type of an uploaded file. -/
structure Storage (Err Obj File : Type) where
  createFile : (bucketId fileId : String) → File → Except Err Obj
  deleteFile : (bucketId fileId : String) → Except Err Obj
  getFilePreview : (bucketId fileId : String) → Except Err Obj

/-- The class `Service`: its two SDK objects, built by the constructor from the settings. -/
structure Service (Err Obj File : Type) where
  config : Config
  databases : Databases Err Obj
  bucket : Storage Err Obj File

/-- What a method hands back to its caller: a value of the SDK, a boolean, or `undefined`
(the end of the body is reached without a `return`). -/
inductive Value (Obj : Type) where
  | obj (o : Obj)
  | bool (b : Bool)
  | undefined
  deriving DecidableEq

/-- One execution of a method: the lines written by `console.log(message, error)`, and the
completion seen by the caller, `Except.ok v` for a returned value (a fulfilled promise) and
`Except.error e` for an error that reaches the caller (a rejected promise, a thrown error). -/
structure Run (Err Obj : Type) where
  log : List (String × Err)
  result : Except Err (Value Obj)

/-- The argument object of `createPost`. -/
structure NewPost where
  title : String
  slug : String
  content : String
  featuredImage : String
  status : String
  userId : String

/-- The second argument of `updatePost`. -/
structure PostUpdate where
  title : String
  content : String
  featuredImage : String
  status : String

variable {Err Obj File : Type}

/-- Method `createPost`: the `catch` block logs and falls off the end of the body. -/
def Service.createPost (svc : Service Err Obj File) (post : NewPost) : Run Err Obj :=
  match svc.databases.createDocument svc.config.appwriteDatabaseId
      svc.config.appwriteCollectionId post.slug
      { title := post.title, content := post.content, featuredImage := post.featuredImage,
        status := post.status, userId := some post.userId } with
  | Except.ok doc => { log := [], result := Except.ok (Value.obj doc) }
  | Except.error error =>
    { log := [("Appwrite service :: createPost :: error", error)],
      result := Except.ok Value.undefined }

/-- Method `updatePost`: the `catch` block logs and falls off the end of the body. -/
def Service.updatePost (svc : Service Err Obj File) (slug : String) (post : PostUpdate) :
    Run Err Obj :=
  match svc.databases.updateDocument svc.config.appwriteDatabaseId
      svc.config.appwriteCollectionId slug
      { title := post.title, content := post.content, featuredImage := post.featuredImage,
        status := post.status, userId := none } with
  | Except.ok doc => { log := [], result := Except.ok (Value.obj doc) }
  | Except.error error =>
    { log := [("Appwrite service :: updatePost :: error", error)],
      result := Except.ok Value.undefined }

/-- Method `deletePost`: `true` after the awaited call, `false` from the `catch` block. -/
def Service.deletePost (svc : Service Err Obj File) (slug : String) : Run Err Obj :=
  match svc.databases.deleteDocument svc.config.appwriteDatabaseId
      svc.config.appwriteCollectionId slug with
  | Except.ok _ => { log := [], result := Except.ok (Value.bool true) }
  | Except.error error =>
    { log := [("Appwrite service :: deletePost :: error", error)],
      result := Except.ok (Value.bool false) }

/-- Method `getPost`: the document, or `false` from the `catch` block. -/
def Service.getPost (svc : Service Err Obj File) (slug : String) : Run Err Obj :=
  match svc.databases.getDocument svc.config.appwriteDatabaseId
      svc.config.appwriteCollectionId slug with
  | Except.ok doc => { log := [], result := Except.ok (Value.obj doc) }
  | Except.error error =>
    { log := [("Appwrite service :: getPost :: error", error)],
      result := Except.ok (Value.bool false) }

/-- Method `getPosts`: an omitted argument (`none`) takes the default
`[Query.equal("status", "active")]`; the list, or `false` from the `catch` block. -/
def Service.getPosts (svc : Service Err Obj File) (queries : Option (List Query)) :
    Run Err Obj :=
  let queries := queries.getD [Query.equal "status" "active"]
  match svc.databases.listDocuments svc.config.appwriteDatabaseId
      svc.config.appwriteCollectionId queries with
  | Except.ok docs => { log := [], result := Except.ok (Value.obj docs) }
  | Except.error error =>
    { log := [("Appwrite service :: getPosts :: error", error)],
      result := Except.ok (Value.bool false) }

/-- Method `uploadFile`; `uniqueId` is the identifier generated by `ID.unique()`. The stored
file, or `false` from the `catch` block. -/
def Service.uploadFile (svc : Service Err Obj File) (uniqueId : String) (file : File) :
    Run Err Obj :=
  match svc.bucket.createFile svc.config.appwriteBucketId uniqueId file with
  | Except.ok stored => { log := [], result := Except.ok (Value.obj stored) }
  | Except.error error =>
    { log := [("Appwrite service :: uploadFile :: error", error)],
      result := Except.ok (Value.bool false) }

/-- Method `deleteFile`: `true` after the awaited call, `false` from the `catch` block. -/
def Service.deleteFile (svc : Service Err Obj File) (fileId : String) : Run Err Obj :=
  match svc.bucket.deleteFile svc.config.appwriteBucketId fileId with
  | Except.ok _ => { log := [], result := Except.ok (Value.bool true) }
  | Except.error error =>
    { log := [("Appwrite service :: deleteFile :: error", error)],
      result := Except.ok (Value.bool false) }

/-- Method `getFilePreview`: not `async`, no `try`; the completion of the SDK call is the
completion of the method. -/
def Service.getFilePreview (svc : Service Err Obj File) (fileId : String) : Run Err Obj :=
  match svc.bucket.getFilePreview svc.config.appwriteBucketId fileId with
  | Except.ok preview => { log := [], result := Except.ok (Value.obj preview) }
  | Except.error error => { log := [], result := Except.error error }

/-- The failure of the SDK call is kept from the caller: the method completes normally with
a falsy sentinel, `false` or `undefined`. -/
def Contained (r : Run Err Obj) : Prop :=
  r.result = Except.ok (Value.bool false) ∨ r.result = Except.ok Value.undefined

instance (r : Run Err Obj) : Decidable (Contained r) :=
  match h : r.result with
  | Except.ok (Value.bool false) => isTrue (Or.inl h)
  | Except.ok Value.undefined => isTrue (Or.inr h)
  | Except.ok (Value.bool true) => isFalse (by simp [Contained, h])
  | Except.ok (Value.obj _) => isFalse (by simp [Contained, h])
  | Except.error _ => isFalse (by simp [Contained, h])

/-- A concrete service whose SDK calls all fail with the error `"offline"`. -/
def offlineService : Service String String String :=
  { config :=
      { appwriteUrl := "https://cloud.example/v1", appwriteProjectId := "p",
        appwriteDatabaseId := "db", appwriteCollectionId := "posts",
        appwriteBucketId := "images" }
    databases :=
      { createDocument := fun _ _ _ _ => Except.error "offline"
        updateDocument := fun _ _ _ _ => Except.error "offline"
        deleteDocument := fun _ _ _ => Except.error "offline"
        getDocument := fun _ _ _ => Except.error "offline"
        listDocuments := fun _ _ _ => Except.error "offline" }
    bucket :=
      { createFile := fun _ _ _ => Except.error "offline"
        deleteFile := fun _ _ => Except.error "offline"
        getFilePreview := fun _ _ => Except.error "offline" } }

end Blog

namespace Binary64

theorem ulpExponent_eq (x : ℚ) (e : ℤ) (h1 : (2 : ℚ) ^ e ≤ |x|) (h2 : |x| < (2 : ℚ) ^ (e + 1)) :
    ulpExponent x = max e (-1022) - 52 := by
  have hpos : 0 < |x| := lt_of_lt_of_le (by positivity) h1
  have ha : e ≤ Int.log 2 |x| :=
    (Int.zpow_le_iff_le_log (by norm_num) hpos).mp (by exact_mod_cast h1)
  have hb : Int.log 2 |x| < e + 1 :=
    (Int.lt_zpow_iff_log_lt (by norm_num) hpos).mp (by exact_mod_cast h2)
  have : Int.log 2 |x| = e := by omega
  rw [ulpExponent, this]

theorem roundHalfEven_eq (y : ℚ) (fl : ℤ) (h1 : (fl : ℚ) ≤ y) (h2 : y < fl + 1) :
    roundHalfEven y = if y - fl < 1 / 2 then fl
      else if 1 / 2 < y - fl then fl + 1 else if fl % 2 = 0 then fl else fl + 1 := by
  have : ⌊y⌋ = fl := Int.floor_eq_iff.mpr ⟨h1, h2⟩
  rw [roundHalfEven, this]

theorem roundHalfEven_intCast (z : ℤ) : roundHalfEven (z : ℚ) = z := by
  rw [roundHalfEven_eq (z : ℚ) z le_rfl (by linarith)]
  norm_num

/-- Rounding moves a value by at most half a unit. -/
theorem roundHalfEven_near (y : ℚ) : |(roundHalfEven y : ℚ) - y| ≤ 1 / 2 := by
  have h1 := Int.floor_le y
  have h2 := Int.lt_floor_add_one y
  unfold roundHalfEven
  rw [abs_le]
  split_ifs with ha hb hc
  · constructor <;> linarith
  · push_cast; constructor <;> linarith
  · constructor <;> linarith
  · push_cast; constructor <;> linarith

/-- Integers of magnitude below `2^53` are binary64 values. -/
theorem nearest64_intCast (z : ℤ) (hz : |z| < 2 ^ 53) : nearest64 (z : ℚ) = z := by
  by_cases h0 : z = 0
  · subst h0; simp [nearest64]
  have hzq : (z : ℚ) ≠ 0 := by exact_mod_cast h0
  have habs : |(z : ℚ)| = ((|z| : ℤ) : ℚ) := by push_cast; rfl
  have hpos : 0 < |(z : ℚ)| := abs_pos.mpr hzq
  have h1 : (1 : ℚ) ≤ |(z : ℚ)| := by
    rw [habs]; exact_mod_cast Int.one_le_abs h0
  have h2 : |(z : ℚ)| < 2 ^ 53 := by
    rw [habs]; exact_mod_cast hz
  have ha : (0 : ℤ) ≤ Int.log 2 |(z : ℚ)| :=
    (Int.zpow_le_iff_le_log (by norm_num) hpos).mp (by simpa using h1)
  have hb : Int.log 2 |(z : ℚ)| < 53 :=
    (Int.lt_zpow_iff_log_lt (by norm_num) hpos).mp (by norm_num; exact h2)
  obtain ⟨k, hk⟩ : ∃ k : ℕ, ulpExponent (z : ℚ) = -(k : ℤ) := by
    refine ⟨(52 - Int.log 2 |(z : ℚ)|).toNat, ?_⟩
    rw [ulpExponent, Int.toNat_of_nonneg (by omega)]
    omega
  rw [nearest64, if_neg hzq, hk, zpow_neg, zpow_natCast, div_inv_eq_mul]
  have hcast : |(z : ℚ)| * 2 ^ k = ((|z| * 2 ^ k : ℤ) : ℚ) := by rw [habs]; push_cast; rfl
  rw [hcast, roundHalfEven_intCast]
  have h2k : (2 : ℚ) ^ k ≠ 0 := by positivity
  push_cast
  by_cases hneg : (z : ℚ) < 0
  · rw [if_pos hneg, abs_of_neg hneg]; field_simp
  · rw [if_neg hneg, abs_of_nonneg (not_lt.mp hneg)]; field_simp

/-- The rounding error is at most half a unit in the last place: `2^-53` of the magnitude
in the normal range, `2^-1075` below it. -/
theorem nearest64_error (x : ℚ) :
    |nearest64 x - x| ≤ max (|x| / 2 ^ 53) (1 / 2 ^ 1075) := by
  by_cases h0 : x = 0
  · subst h0
    simp [nearest64]
  have hpos : 0 < |x| := abs_pos.mpr h0
  have h2q : (0 : ℚ) < 2 ^ ulpExponent x := by positivity
  have hnear := roundHalfEven_near (|x| / 2 ^ ulpExponent x)
  have herr : |nearest64 x - x| ≤ 2 ^ ulpExponent x / 2 := by
    have hx : x = (if x < 0 then -1 else 1) * (|x| / 2 ^ ulpExponent x) * 2 ^ ulpExponent x := by
      by_cases hneg : x < 0
      · rw [if_pos hneg, abs_of_neg hneg]; field_simp
      · rw [if_neg hneg, abs_of_nonneg (not_lt.mp hneg)]; field_simp
    have hd : nearest64 x - x = (if x < 0 then -1 else 1) *
        ((roundHalfEven (|x| / 2 ^ ulpExponent x) : ℚ) - |x| / 2 ^ ulpExponent x) *
        2 ^ ulpExponent x := by
      rw [nearest64, if_neg h0]
      linear_combination -hx
    rw [hd, abs_mul, abs_mul, abs_of_pos h2q]
    have hs : |(if x < 0 then (-1 : ℚ) else 1)| = 1 := by
      split_ifs <;> simp
    rw [hs, one_mul]
    calc |(roundHalfEven (|x| / 2 ^ ulpExponent x) : ℚ) - |x| / 2 ^ ulpExponent x| *
          2 ^ ulpExponent x ≤ 1 / 2 * 2 ^ ulpExponent x :=
          mul_le_mul_of_nonneg_right hnear h2q.le
      _ = 2 ^ ulpExponent x / 2 := by ring
  refine le_trans herr ?_
  by_cases hn : -1022 ≤ Int.log 2 |x|
  · refine le_trans ?_ (le_max_left _ _)
    have hq : ulpExponent x = Int.log 2 |x| - 52 := by
      rw [ulpExponent, max_eq_left hn]
    have hle : (2 : ℚ) ^ Int.log 2 |x| ≤ |x| := by
      exact_mod_cast Int.zpow_log_le_self (by norm_num) hpos
    rw [hq, zpow_sub₀ (by norm_num), div_div]
    have : (2 : ℚ) ^ (52 : ℤ) * 2 = 2 ^ 53 := by norm_num
    rw [this]
    exact div_le_div_of_nonneg_right hle (by positivity)
  · refine le_trans ?_ (le_max_right _ _)
    have hq : ulpExponent x = -1074 := by
      rw [ulpExponent, max_eq_right (by omega)]; norm_num
    rw [hq]
    norm_num

end Binary64

namespace Counter

theorem add_exact (a b : Int) (h : |a + b| < 2 ^ 53) : add a b = a + b := by
  rw [add, Binary64.nearest64_intCast _ h, Int.floor_intCast]

theorem sub_exact (a b : Int) (h : |a - b| < 2 ^ 53) : sub a b = a - b := by
  rw [sub, Binary64.nearest64_intCast _ h, Int.floor_intCast]

theorem addValue_of_lt {v : Int} (hlo : -2 ^ 53 ≤ v) (h : v < 20) : addValue v = v + 1 := by
  rw [addValue, if_pos h, add_exact]
  rw [abs_lt]
  constructor <;> omega

theorem removeValue_of_pos {v : Int} (hhi : v ≤ 2 ^ 53) (h : v > 0) :
    removeValue v = v - 1 := by
  rw [removeValue, if_pos h, sub_exact]
  rw [abs_lt]
  constructor <;> omega

theorem addValue_inRange {c : Int} (h : InRange c) : InRange (addValue c) := by
  unfold InRange at *
  by_cases hc : c < 20
  · rw [addValue_of_lt (by omega) hc]; omega
  · rw [addValue, if_neg hc]; omega

theorem removeValue_inRange {c : Int} (h : InRange c) : InRange (removeValue c) := by
  unfold InRange at *
  by_cases hc : c > 0
  · rw [removeValue_of_pos (by omega) hc]; omega
  · rw [removeValue, if_neg hc]; omega

theorem onClick_inRange (k : Click) {c : Int} (h : InRange c) : InRange (onClick k c) := by
  cases k
  · exact addValue_inRange h
  · exact removeValue_inRange h

theorem run_inRange (clicks : List Click) : ∀ {c : Int}, InRange c → InRange (run c clicks) := by
  induction clicks with
  | nil => intro c h; simpa [run] using h
  | cons k ks ih =>
    intro c h
    have := ih (onClick_inRange k h)
    simpa [run] using this

theorem run_replicate_succ (k : Click) (n : Nat) (c : Int) :
    run c (List.replicate (n + 1) k) = onClick k (run c (List.replicate n k)) := by
  simp [run, List.replicate_succ', List.foldl_append]

theorem run_increments (n : Nat) :
    run initialCount (List.replicate n Click.increment) = min (n : Int) 20 := by
  induction n with
  | zero => simp [run, initialCount]
  | succ n ih =>
    rw [run_replicate_succ, ih]
    simp only [onClick]
    by_cases h : min (n : Int) 20 < 20
    · rw [addValue_of_lt (by omega) h]
      push_cast
      omega
    · rw [addValue, if_neg h]
      push_cast
      omega

theorem nearest64_below_safe :
    Binary64.nearest64 ((-9007199254740993 : Int) : ℚ) = -9007199254740992 := by
  have he : Binary64.ulpExponent ((-9007199254740993 : Int) : ℚ) = 1 := by
    rw [Binary64.ulpExponent_eq _ 53 (by norm_num [abs_of_neg]) (by norm_num [abs_of_neg])]
    norm_num
  rw [Binary64.nearest64, he,
    Binary64.roundHalfEven_eq _ 4503599627370496 (by norm_num [abs_of_neg])
      (by norm_num [abs_of_neg])]
  norm_num [abs_of_neg]

theorem nearest64_above_safe :
    Binary64.nearest64 ((9007199254740993 : Int) : ℚ) = 9007199254740992 := by
  have he : Binary64.ulpExponent ((9007199254740993 : Int) : ℚ) = 1 := by
    rw [Binary64.ulpExponent_eq _ 53 (by norm_num [abs_of_nonneg])
      (by norm_num [abs_of_nonneg])]
    norm_num
  rw [Binary64.nearest64, he,
    Binary64.roundHalfEven_eq _ 4503599627370496 (by norm_num [abs_of_nonneg])
      (by norm_num [abs_of_nonneg])]
  norm_num [abs_of_nonneg]

/-- The integer `2^53 + 2` is a binary64 value, and so is its negative. -/
theorem nearest64_even_beyond_safe :
    Binary64.nearest64 ((9007199254740994 : Int) : ℚ) = 9007199254740994 ∧
      Binary64.nearest64 ((-9007199254740994 : Int) : ℚ) = -9007199254740994 := by
  have he : Binary64.ulpExponent ((9007199254740994 : Int) : ℚ) = 1 := by
    rw [Binary64.ulpExponent_eq _ 53 (by norm_num [abs_of_nonneg])
      (by norm_num [abs_of_nonneg])]
    norm_num
  have he' : Binary64.ulpExponent ((-9007199254740994 : Int) : ℚ) = 1 := by
    rw [Binary64.ulpExponent_eq _ 53 (by norm_num [abs_of_neg]) (by norm_num [abs_of_neg])]
    norm_num
  constructor
  · rw [Binary64.nearest64, he,
      Binary64.roundHalfEven_eq _ 4503599627370497 (by norm_num [abs_of_nonneg])
        (by norm_num [abs_of_nonneg])]
    norm_num [abs_of_nonneg]
  · rw [Binary64.nearest64, he',
      Binary64.roundHalfEven_eq _ 4503599627370497 (by norm_num [abs_of_neg])
        (by norm_num [abs_of_neg])]
    norm_num [abs_of_neg]

end Counter

namespace Counter

/-- C1: from the initial state `count = 0`, after every finite sequence of `addValue` and
`removeValue` steps, in any order, the counter value satisfies `0 ≤ count ≤ 20`. -/
theorem counter_range_invariant (clicks : List Click) :
    0 ≤ run initialCount clicks ∧ run initialCount clicks ≤ 20 :=
  run_inRange clicks (show InRange initialCount by unfold InRange initialCount; omega)

/-- C2, as the code has it: for every integer counter value `v ≥ -2^53`, `addValue` gives
`v + 1` when `v < 20`; for every `v` that is not below 20 it leaves the value unchanged, and
at `v = 20` the value stays 20. The handler is a total function, so no error is raised. -/
theorem addValue_spec (v : Int) :
    (-2 ^ 53 ≤ v → v < 20 → addValue v = v + 1) ∧ (¬ v < 20 → addValue v = v) ∧
      addValue 20 = 20 := by
  refine ⟨fun hlo h => addValue_of_lt hlo h, fun h => ?_, ?_⟩
  · rw [addValue, if_neg h]
  · rw [addValue, if_neg (by decide)]

theorem addValue_spec_witness :
    addValue 7 = 7 + 1 ∧ addValue (-2 ^ 53) = -2 ^ 53 + 1 ∧ addValue 23 = 23 ∧
      addValue 20 = 20 :=
  ⟨(addValue_spec 7).1 (by decide) (by decide),
    (addValue_spec (-2 ^ 53)).1 (by decide) (by decide),
    (addValue_spec 23).2.1 (by decide), (addValue_spec 20).2.2⟩

/-- C2, as the claim states it, fails at the counter value `v = -9007199254740994`, a
binary64 value below 20: the sum `v + 1` is not a binary64 value, it lies midway between two
of them, and the code stores `-9007199254740992`, which is not `v + 1`. -/
theorem addValue_beyond_safe :
    Binary64.nearest64 ((-9007199254740994 : Int) : ℚ) = -9007199254740994 ∧
      (-9007199254740994 : Int) < 20 ∧
      addValue (-9007199254740994) = -9007199254740992 ∧
      addValue (-9007199254740994) ≠ -9007199254740994 + 1 := by
  have h : addValue (-9007199254740994) = -9007199254740992 := by
    have hs : ((-9007199254740994 : Int) + 1) = -9007199254740993 := by norm_num
    rw [addValue, if_pos (by norm_num), add, hs, nearest64_below_safe]
    norm_num
  refine ⟨nearest64_even_beyond_safe.2, by norm_num, h, ?_⟩
  rw [h]
  norm_num

/-- C3, as the code has it: for every integer counter value `v ≤ 2^53`, `removeValue` gives
`v - 1` when `v > 0`; for every `v` that is not above 0 it leaves the value unchanged, and at
`v = 0` the value stays 0. The handler is a total function, so no error is raised. -/
theorem removeValue_spec (v : Int) :
    (v ≤ 2 ^ 53 → v > 0 → removeValue v = v - 1) ∧ (¬ v > 0 → removeValue v = v) ∧
      removeValue 0 = 0 := by
  refine ⟨fun hhi h => removeValue_of_pos hhi h, fun h => ?_, ?_⟩
  · rw [removeValue, if_neg h]
  · rw [removeValue, if_neg (by decide)]

theorem removeValue_spec_witness :
    removeValue 7 = 7 - 1 ∧ removeValue (2 ^ 53) = 2 ^ 53 - 1 ∧ removeValue (-3) = -3 ∧
      removeValue 0 = 0 :=
  ⟨(removeValue_spec 7).1 (by decide) (by decide),
    (removeValue_spec (2 ^ 53)).1 (by decide) (by decide),
    (removeValue_spec (-3)).2.1 (by decide), (removeValue_spec 0).2.2⟩

/-- C3, as the claim states it, fails at the counter value `v = 9007199254740994`, a
binary64 value above 0: the difference `v - 1` is not a binary64 value, it lies midway
between two of them, and the code stores `9007199254740992`, which is not `v - 1`. -/
theorem removeValue_beyond_safe :
    Binary64.nearest64 ((9007199254740994 : Int) : ℚ) = 9007199254740994 ∧
      (9007199254740994 : Int) > 0 ∧
      removeValue 9007199254740994 = 9007199254740992 ∧
      removeValue 9007199254740994 ≠ 9007199254740994 - 1 := by
  have h : removeValue 9007199254740994 = 9007199254740992 := by
    have hs : ((9007199254740994 : Int) - 1) = 9007199254740993 := by norm_num
    rw [removeValue, if_pos (by norm_num), sub, hs, nearest64_above_safe]
    norm_num
  refine ⟨nearest64_even_beyond_safe.1, by norm_num, h, ?_⟩
  rw [h]
  norm_num

/-- C4: for every integer `v` with `0 ≤ v ≤ 20` the colour is "orange" when `v = 0`, "green"
when `0 < v < 20` and "red" when `v = 20`. -/
theorem color_on_range (v : Int) (h0 : 0 ≤ v) (h20 : v ≤ 20) :
    (v = 0 → color v = "orange") ∧ (0 < v ∧ v < 20 → color v = "green") ∧
      (v = 20 → color v = "red") := by
  refine ⟨fun h => ?_, fun h => ?_, fun h => ?_⟩
  · subst h; decide
  · have h1 : v ≠ 20 := by omega
    have h2 : v ≠ 0 := by omega
    simp [color, h.1, h1, h2]
  · subst h; decide

theorem color_on_range_witness :
    color 0 = "orange" ∧ color 7 = "green" ∧ color 20 = "red" :=
  ⟨(color_on_range 0 (by decide) (by decide)).1 rfl,
    (color_on_range 7 (by decide) (by decide)).2.1 ⟨by decide, by decide⟩,
    (color_on_range 20 (by decide) (by decide)).2.2 rfl⟩

/-- C5, as the code has it: `color` is a total function that returns "black" for every
negative integer, "orange" at 0, "red" at 20 and "green" for every other positive integer,
those above 20 included; so every label is one of the four "orange", "green", "red" and
"black", and for every `v ≥ 0` it is one of "orange", "green" and "red". -/
theorem color_labels (v : Int) :
    (v < 0 → color v = "black") ∧ (v = 0 → color v = "orange") ∧
      (0 < v → v ≠ 20 → color v = "green") ∧ (20 < v → color v = "green") ∧
      (v = 20 → color v = "red") ∧
      (0 ≤ v → color v = "orange" ∨ color v = "green" ∨ color v = "red") := by
  have hneg : v < 0 → color v = "black" := fun h => by
    have h1 : ¬ v > 0 := by omega
    have h2 : v ≠ 20 := by omega
    have h3 : v ≠ 0 := by omega
    simp [color, h1, h2, h3]
  have hzero : v = 0 → color v = "orange" := fun h => by subst h; decide
  have hgreen : 0 < v → v ≠ 20 → color v = "green" := fun h h20 => by
    have h3 : v ≠ 0 := by omega
    simp [color, h, h20, h3]
  have hred : v = 20 → color v = "red" := fun h => by subst h; decide
  refine ⟨hneg, hzero, hgreen, fun h => hgreen (by omega) (by omega), hred, fun h0 => ?_⟩
  rcases lt_trichotomy v 0 with h | h | h
  · omega
  · exact Or.inl (hzero h)
  · by_cases h20 : v = 20
    · exact Or.inr (Or.inr (hred h20))
    · exact Or.inr (Or.inl (hgreen h h20))

theorem color_labels_witness :
    color (-7) = "black" ∧ color 0 = "orange" ∧ color 25 = "green" ∧ color 20 = "red" ∧
      (color 21 = "orange" ∨ color 21 = "green" ∨ color 21 = "red") :=
  ⟨(color_labels (-7)).1 (by decide), (color_labels 0).2.1 rfl,
    (color_labels 25).2.2.2.1 (by decide), (color_labels 20).2.2.2.2.1 rfl,
    (color_labels 21).2.2.2.2.2 (by decide)⟩

/-- C5, as the claim states it, fails at `v = -1`: the first assignment `color = "black"` is
never overwritten, and "black" is none of the three labels. -/
theorem color_negative_is_black :
    color (-1) = "black" ∧
      ¬ (color (-1) = "orange" ∨ color (-1) = "green" ∨ color (-1) = "red") := by
  decide

/-- C9: for every natural number `n`, `n` increments from the initial state give
`min n 20`; after 20 increments the value is 20 and its colour is "red", and after a 21st
increment the value is still 20. -/
theorem saturating_increments (n : Nat) :
    run initialCount (List.replicate n Click.increment) = min (n : Int) 20 ∧
      run initialCount (List.replicate 20 Click.increment) = 20 ∧
      color (run initialCount (List.replicate 20 Click.increment)) = "red" ∧
      run initialCount (List.replicate 21 Click.increment) = 20 := by
  have h20 : run initialCount (List.replicate 20 Click.increment) = 20 := by
    rw [run_increments]; norm_num
  have h21 : run initialCount (List.replicate 21 Click.increment) = 20 := by
    rw [run_increments]; norm_num
  refine ⟨run_increments n, h20, ?_, h21⟩
  rw [h20]; decide

end Counter

namespace Converter

theorem toDigitsCore_append (b : Nat) :
    ∀ (fuel n : Nat) (ds : List Char),
      Nat.toDigitsCore b fuel n ds = Nat.toDigitsCore b fuel n [] ++ ds := by
  intro fuel
  induction fuel with
  | zero => intro n ds; simp [Nat.toDigitsCore]
  | succ fuel ih =>
    intro n ds
    simp only [Nat.toDigitsCore]
    split
    · simp
    · rw [ih (n / b) (Nat.digitChar (n % b) :: ds), ih (n / b) [Nat.digitChar (n % b)]]
      simp

theorem toDigitsCore_fuel (b : Nat) (hb : 2 ≤ b) :
    ∀ (f1 f2 n : Nat) (ds : List Char), n < f1 → n < f2 →
      Nat.toDigitsCore b f1 n ds = Nat.toDigitsCore b f2 n ds := by
  intro f1
  induction f1 with
  | zero => intro f2 n ds h1; omega
  | succ f1 ih =>
    intro f2 n ds h1 h2
    cases f2 with
    | zero => omega
    | succ f2 =>
      simp only [Nat.toDigitsCore]
      split
      · rfl
      · rename_i hne
        have hpos : 0 < n := by
          rcases Nat.eq_zero_or_pos n with h | h
          · subst h; simp at hne
          · exact h
        have hlt : n / b < n := Nat.div_lt_self hpos (by omega)
        exact ih f2 (n / b) _ (by omega) (by omega)

theorem toDigits_of_lt (n : Nat) (h : n < 10) : Nat.toDigits 10 n = [Nat.digitChar n] := by
  have h0 : n / 10 = 0 := Nat.div_eq_of_lt h
  have h1 : n % 10 = n := Nat.mod_eq_of_lt h
  simp [Nat.toDigits, Nat.toDigitsCore, h0, h1]

theorem toDigits_of_ge (n : Nat) (h : 10 ≤ n) :
    Nat.toDigits 10 n = Nat.toDigits 10 (n / 10) ++ [Nat.digitChar (n % 10)] := by
  have h0 : n / 10 ≠ 0 := by omega
  have hlt : n / 10 < n := Nat.div_lt_self (by omega) (by omega)
  rw [Nat.toDigits, Nat.toDigitsCore]
  simp only [h0, if_false]
  rw [toDigitsCore_append, toDigitsCore_fuel 10 (by norm_num) n (n / 10 + 1) (n / 10) [] hlt
    (by omega)]
  rfl

theorem toDigits_length_pos (n : Nat) : 0 < (Nat.toDigits 10 n).length := by
  by_cases h : n < 10
  · rw [toDigits_of_lt n h]; simp
  · rw [toDigits_of_ge n (by omega)]; simp

/-- The characters of a text with two decimals: the sign, the decimal numeral of `n / 100`,
a point and the two digits of `n % 100`. -/
theorem renderFixed_two (neg : Bool) (n : Nat) :
    renderFixed neg n 2 =
      (if neg then "-" else "") ++ (toString (n / 100) ++ "." ++
        String.mk [Nat.digitChar (n / 10 % 10), Nat.digitChar (n % 10)]) := by
  have hrepr : ∀ k : Nat, toString k = String.mk (Nat.toDigits 10 k) := fun k => rfl
  unfold renderFixed
  simp only [hrepr]
  congr 1
  by_cases h1 : n < 10
  · have hq : n / 100 = 0 := by omega
    have hd : n / 10 % 10 = 0 := by omega
    have hm : n % 10 = n := by omega
    rw [toDigits_of_lt n h1, hq, hd, hm, toDigits_of_lt 0 (by norm_num)]
    simp
    rfl
  · by_cases h2 : n < 100
    · have hq : n / 100 = 0 := by omega
      have hd : n / 10 % 10 = n / 10 := by omega
      rw [toDigits_of_ge n (by omega), toDigits_of_lt (n / 10) (by omega), hq, hd,
        toDigits_of_lt 0 (by norm_num)]
      simp
      rfl
    · have hq : n / 10 / 10 = n / 100 := by omega
      have hlen := toDigits_length_pos (n / 100)
      rw [toDigits_of_ge n (by omega), toDigits_of_ge (n / 10) (by omega), hq]
      have hl : ¬ (Nat.toDigits 10 (n / 100) ++ [Nat.digitChar (n / 10 % 10)] ++
          [Nat.digitChar (n % 10)]).length ≤ 2 := by
        simp only [List.length_append, List.length_singleton]
        omega
      simp only [hl, if_false]
      simp

end Converter

namespace Converter

theorem abs_ite (x : ℚ) : (if x < 0 then -x else x) = |x| := by
  split
  · rename_i h; rw [abs_of_neg h]
  · rename_i h; rw [abs_of_nonneg (not_lt.mp h)]

theorem toFixed_of_lt (v : ℚ) (f : Nat) (h : |v| < 10 ^ 21) :
    toFixed (Num.fin v) f =
      NumText.fixed (decide (v < 0)) ⌊|v| * 10 ^ f + 1 / 2⌋.toNat f := by
  unfold toFixed
  simp only [abs_ite]
  rw [if_neg (not_le.mpr h)]

theorem toFixed_of_ge (v : ℚ) (f : Nat) (h : 10 ^ 21 ≤ |v|) :
    toFixed (Num.fin v) f = NumText.ofNumber (Num.fin v) := by
  unfold toFixed
  simp only [abs_ite]
  rw [if_pos h]

/-- The integer chosen by `toFixed` is the nearest multiple of `10^-2`, the upper one of
two. -/
theorem nearest_bounds (a : ℚ) (ha : 0 ≤ a) :
    a - 1 / 200 < ((⌊a * 100 + 1 / 2⌋.toNat : Nat) : ℚ) / 100 ∧
      ((⌊a * 100 + 1 / 2⌋.toNat : Nat) : ℚ) / 100 ≤ a + 1 / 200 := by
  have hnn : 0 ≤ ⌊a * 100 + 1 / 2⌋ := Int.floor_nonneg.mpr (by positivity)
  have hcast : ((⌊a * 100 + 1 / 2⌋.toNat : Nat) : ℚ) = ((⌊a * 100 + 1 / 2⌋ : Int) : ℚ) := by
    rw [← Int.cast_natCast, Int.toNat_of_nonneg hnn]
  have h1 := Int.floor_le (a * 100 + 1 / 2)
  have h2 := Int.lt_floor_add_one (a * 100 + 1 / 2)
  rw [hcast]
  constructor
  · rw [lt_div_iff₀ (by norm_num)]; linarith
  · rw [div_le_iff₀ (by norm_num)]; linarith

theorem round64_eq_fin {x p : ℚ} (h : round64 x = Num.fin p) : Binary64.nearest64 x = p := by
  unfold round64 at h
  split at h
  · cases h
  · exact Num.fin.inj h

theorem round64_of_nearest {x v : ℚ} (h : Binary64.nearest64 x = v) (hv : |v| < 2 ^ 1024) :
    round64 x = Num.fin v := by
  rw [round64, h, if_neg (not_le.mpr hv)]

theorem convert_of_rate (currencyInfo : CurrencyInfo) (s : State) (a r p : ℚ)
    (hget : currencyInfo.get s.«to» = Property.number (Num.fin r)) (hr : r ≠ 0)
    (ha : toNumber s.amount = Num.fin a) (hp : (Num.fin a).mul (Num.fin r) = Num.fin p) :
    convert currencyInfo s = { s with convertedAmount := Val.str (toFixed (Num.fin p) 2) } := by
  unfold convert
  rw [hget, ha]
  simp only [Property.toBoolean, Num.toBoolean, Property.toNumber, hp]
  rw [if_pos (by simpa using hr)]

theorem convert_of_falsy (currencyInfo : CurrencyInfo) (s : State)
    (h : (currencyInfo.get s.«to»).toBoolean = false) : convert currencyInfo s = s := by
  unfold convert
  rw [h]
  simp

theorem mul_100_83 : (Num.fin 100).mul (Num.fin 83) = Num.fin 8300 := by
  show round64 (100 * 83) = Num.fin 8300
  refine round64_of_nearest ?_ (by norm_num [abs_of_nonneg])
  have he : Binary64.ulpExponent (100 * 83 : ℚ) = -39 := by
    rw [Binary64.ulpExponent_eq _ 13 (by norm_num [abs_of_nonneg])
      (by norm_num [abs_of_nonneg])]
    norm_num
  rw [Binary64.nearest64, he,
    Binary64.roundHalfEven_eq _ 4562973255270400 (by norm_num [abs_of_nonneg])
      (by norm_num [abs_of_nonneg])]
  norm_num [abs_of_nonneg]

theorem literal_134042 : round64 (134042 / 1000) = Num.fin rate134042 := by
  refine round64_of_nearest ?_ (by norm_num [rate134042, abs_of_nonneg])
  have he : Binary64.ulpExponent (134042 / 1000 : ℚ) = -45 := by
    rw [Binary64.ulpExponent_eq _ 7 (by norm_num [abs_of_nonneg])
      (by norm_num [abs_of_nonneg])]
    norm_num
  rw [Binary64.nearest64, he,
    Binary64.roundHalfEven_eq _ 4716183603531218 (by norm_num [abs_of_nonneg])
      (by norm_num [abs_of_nonneg])]
  norm_num [abs_of_nonneg, rate134042]

theorem mul_rounding :
    (Num.fin (265 / 2)).mul (Num.fin rate134042) =
      Num.fin (4881986933342863 / 274877906944) := by
  show round64 (265 / 2 * rate134042) = _
  refine round64_of_nearest ?_ (by norm_num [abs_of_nonneg])
  have he : Binary64.ulpExponent (265 / 2 * rate134042 : ℚ) = -38 := by
    rw [Binary64.ulpExponent_eq _ 14 (by norm_num [rate134042, abs_of_nonneg])
      (by norm_num [rate134042, abs_of_nonneg])]
    norm_num
  rw [Binary64.nearest64, he,
    Binary64.roundHalfEven_eq _ 4881986933342863 (by norm_num [rate134042, abs_of_nonneg])
      (by norm_num [rate134042, abs_of_nonneg])]
  norm_num [abs_of_nonneg, rate134042]

theorem mul_huge :
    (Num.fin (10 ^ 21)).mul (Num.fin 83) = Num.fin 83000000000000002097152 := by
  show round64 (10 ^ 21 * 83) = _
  refine round64_of_nearest ?_ (by norm_num [abs_of_nonneg])
  have he : Binary64.ulpExponent (10 ^ 21 * 83 : ℚ) = 24 := by
    rw [Binary64.ulpExponent_eq _ 76 (by norm_num [abs_of_nonneg])
      (by norm_num [abs_of_nonneg])]
    norm_num
  rw [Binary64.nearest64, he,
    Binary64.roundHalfEven_eq _ 4947185516357421 (by norm_num [abs_of_nonneg])
      (by norm_num [abs_of_nonneg])]
  norm_num [abs_of_nonneg]

end Converter

namespace Converter

theorem exampleState_converted :
    (convert exampleRates exampleState).convertedAmount =
      Val.str (NumText.fixed false 830000 2) := by
  rw [convert_of_rate exampleRates exampleState 100 83 8300 rfl (by norm_num) rfl mul_100_83]
  show Val.str (toFixed (Num.fin 8300) 2) = _
  rw [toFixed_of_lt _ _ (by norm_num [abs_of_nonneg])]
  norm_num [abs_of_nonneg]
  rfl

theorem roundingState_converted :
    (convert roundingRates roundingState).convertedAmount =
      Val.str (NumText.fixed false 1776056 2) := by
  rw [convert_of_rate roundingRates roundingState (265 / 2) rate134042
    (4881986933342863 / 274877906944) rfl (by norm_num [rate134042]) rfl mul_rounding]
  show Val.str (toFixed (Num.fin (4881986933342863 / 274877906944)) 2) = _
  rw [toFixed_of_lt _ _ (by norm_num [abs_of_nonneg])]
  have hfl : ⌊|(4881986933342863 / 274877906944 : ℚ)| * 10 ^ 2 + 1 / 2⌋ = 1776056 := by
    rw [Int.floor_eq_iff]
    constructor <;> norm_num [abs_of_nonneg]
  rw [hfl]
  norm_num
  rfl

theorem hugeState_converted :
    (convert exampleRates hugeState).convertedAmount =
      Val.str (NumText.ofNumber (Num.fin 83000000000000002097152)) := by
  rw [convert_of_rate exampleRates hugeState (10 ^ 21) 83 83000000000000002097152 rfl
    (by norm_num) rfl mul_huge]
  show Val.str (toFixed (Num.fin 83000000000000002097152) 2) = _
  rw [toFixed_of_ge _ _ (by norm_num [abs_of_nonneg])]

/-- C6: `swap` takes the state (from = A, to = B, amount = X, convertedAmount = Y) to
(from = B, to = A, amount = Y, convertedAmount = X), applying it twice gives the state back,
and (usd, inr, 10, 830) becomes (inr, usd, 830, 10). -/
theorem swap_spec (A B : String) (X Y : Val) :
    swap { «from» := A, «to» := B, amount := X, convertedAmount := Y } =
        { «from» := B, «to» := A, amount := Y, convertedAmount := X } ∧
      (∀ s : State, swap (swap s) = s) ∧
      swap { «from» := "usd", «to» := "inr", amount := Val.num (Num.fin 10),
             convertedAmount := Val.num (Num.fin 830) } =
        { «from» := "inr", «to» := "usd", amount := Val.num (Num.fin 830),
          convertedAmount := Val.num (Num.fin 10) } :=
  ⟨rfl, fun _ => rfl, rfl⟩

/-- C7, as the code has it: when the rate table has a non-zero finite rate `r` for `to`, the
amount has the finite numeric value `a`, and the binary64 product `p` of `a` and `r` is
finite with `|p| < 10^21`, then `convert` leaves `from`, `to` and `amount` unchanged and sets
`convertedAmount` to a text with exactly two decimals: its sign is the one of `p`, its digits
`n` make `n / 100` the hundredth nearest to `|p|` (the upper one of two), and its characters
are the sign, the numeral of `n / 100`, a point and the two digits of `n % 100`. The product
`p` is the exact product `a * r` rounded to binary64: it differs from `a * r` by at most
`|a * r| / 2^53`, or by at most `2^-1075` for a product below the normal range. -/
theorem convert_rounds (currencyInfo : CurrencyInfo) (s : State) (a r p : ℚ)
    (hget : currencyInfo.get s.«to» = Property.number (Num.fin r)) (hr : r ≠ 0)
    (ha : toNumber s.amount = Num.fin a)
    (hp : (Num.fin a).mul (Num.fin r) = Num.fin p)
    (hlt : |p| < 10 ^ 21) :
    (convert currencyInfo s).«from» = s.«from» ∧
      (convert currencyInfo s).«to» = s.«to» ∧
      (convert currencyInfo s).amount = s.amount ∧
      |p - a * r| ≤ max (|a * r| / 2 ^ 53) (1 / 2 ^ 1075) ∧
      ∃ n : Nat,
        (convert currencyInfo s).convertedAmount =
            Val.str (NumText.fixed (decide (p < 0)) n 2) ∧
          |p| - 1 / 200 < (n : ℚ) / 100 ∧
          (n : ℚ) / 100 ≤ |p| + 1 / 200 ∧
          renderFixed (decide (p < 0)) n 2 =
            (if p < 0 then "-" else "") ++ (toString (n / 100) ++ "." ++
              String.mk [Nat.digitChar (n / 10 % 10), Nat.digitChar (n % 10)]) := by
  rw [convert_of_rate currencyInfo s a r p hget hr ha hp]
  have herr : |p - a * r| ≤ max (|a * r| / 2 ^ 53) (1 / 2 ^ 1075) := by
    have hn : Binary64.nearest64 (a * r) = p := round64_eq_fin hp
    rw [← hn]
    exact Binary64.nearest64_error (a * r)
  refine ⟨rfl, rfl, rfl, herr, ⌊|p| * 100 + 1 / 2⌋.toNat, ?_, ?_, ?_, ?_⟩
  · show Val.str (toFixed (Num.fin p) 2) = _
    rw [toFixed_of_lt _ _ hlt]
    norm_num
  · exact (nearest_bounds _ (abs_nonneg _)).1
  · exact (nearest_bounds _ (abs_nonneg _)).2
  · rw [renderFixed_two]
    by_cases h : p < 0 <;> simp [h]

theorem convert_rounds_witness :
    exampleRates.get exampleState.«to» = Property.number (Num.fin 83) ∧
      toNumber exampleState.amount = Num.fin 100 ∧
      (Num.fin 100).mul (Num.fin 83) = Num.fin 8300 ∧
      ((convert exampleRates exampleState).«from» = exampleState.«from» ∧
        (convert exampleRates exampleState).«to» = exampleState.«to» ∧
        (convert exampleRates exampleState).amount = exampleState.amount ∧
        |(8300 : ℚ) - 100 * 83| ≤ max (|(100 : ℚ) * 83| / 2 ^ 53) (1 / 2 ^ 1075) ∧
        ∃ n : Nat,
          (convert exampleRates exampleState).convertedAmount =
              Val.str (NumText.fixed (decide ((8300 : ℚ) < 0)) n 2) ∧
            |(8300 : ℚ)| - 1 / 200 < (n : ℚ) / 100 ∧
            (n : ℚ) / 100 ≤ |(8300 : ℚ)| + 1 / 200 ∧
            renderFixed (decide ((8300 : ℚ) < 0)) n 2 =
              (if (8300 : ℚ) < 0 then "-" else "") ++ (toString (n / 100) ++ "." ++
                String.mk [Nat.digitChar (n / 10 % 10), Nat.digitChar (n % 10)])) ∧
      (convert exampleRates exampleState).convertedAmount =
        Val.str (NumText.fixed false 830000 2) ∧
      renderFixed false 830000 2 = "8300.00" :=
  ⟨rfl, rfl, mul_100_83,
    convert_rounds exampleRates exampleState 100 83 8300 rfl (by norm_num) rfl mul_100_83
      (by norm_num [abs_of_nonneg]),
    exampleState_converted, by decide⟩

/-- C7, as the claim states it, fails twice. For the amount `132.5` and the rate table
`{inr: 134.042}` the code stores the text "17760.56", which is further than half a hundredth
from the exact product of the amount and the rate (the hundredth nearest to that product is
17760.57): the product is rounded to binary64 before `toFixed` sees it. For the amount `1e21`
and the rate table `{inr: 83}` the product is not below `10^21`, `toFixed` returns the text
of `ToString` ("8.3e+22"), and `convertedAmount` is no text with two decimals. -/
theorem convert_not_exact_rounding :
    round64 (134042 / 1000) = Num.fin rate134042 ∧
      roundingRates.get roundingState.«to» = Property.number (Num.fin rate134042) ∧
      toNumber roundingState.amount = Num.fin (265 / 2) ∧
      (convert roundingRates roundingState).convertedAmount =
        Val.str (NumText.fixed false 1776056 2) ∧
      renderFixed false 1776056 2 = "17760.56" ∧
      1 / 200 < |fixedValue false 1776056 2 - 265 / 2 * rate134042| ∧
      |fixedValue false 1776057 2 - 265 / 2 * rate134042| < 1 / 200 ∧
      exampleRates.get hugeState.«to» = Property.number (Num.fin 83) ∧
      toNumber hugeState.amount = Num.fin (10 ^ 21) ∧
      (convert exampleRates hugeState).convertedAmount =
        Val.str (NumText.ofNumber (Num.fin 83000000000000002097152)) ∧
      ¬ ∃ (neg : Bool) (n : Nat),
        (convert exampleRates hugeState).convertedAmount =
          Val.str (NumText.fixed neg n 2) := by
  refine ⟨literal_134042, rfl, rfl, roundingState_converted, by decide, ?_, ?_, rfl, rfl,
    hugeState_converted, ?_⟩
  · norm_num [fixedValue, rate134042, abs_lt, lt_abs]
  · norm_num [fixedValue, rate134042, abs_lt]
  · rintro ⟨neg, n, hn⟩
    rw [hugeState_converted] at hn
    cases hn

/-- C10, as the code has it: when the rate table has no entry for the target currency `to`
and `to` is not one of the property names inherited from `Object.prototype`, `convert`
returns (it is a total function) and leaves the whole state unchanged. -/
theorem convert_missing_rate (currencyInfo : CurrencyInfo) (s : State)
    (hmiss : currencyInfo.lookup s.«to» = none) (hproto : s.«to» ∉ objectPrototypeKeys) :
    convert currencyInfo s = s := by
  apply convert_of_falsy
  rw [CurrencyInfo.get, hmiss]
  simp only [if_neg hproto, Property.toBoolean]

theorem convert_missing_rate_witness :
    exampleRates.lookup "eur" = none ∧ "eur" ∉ objectPrototypeKeys ∧
      convert exampleRates { exampleState with «to» := "eur" } =
        { exampleState with «to» := "eur" } :=
  ⟨by decide, by decide,
    convert_missing_rate exampleRates { exampleState with «to» := "eur" } (by decide)
      (by decide)⟩

/-- C10, as the claim states it, fails for the rate table `{inr: 83}` and the target
currency `"toString"`: the table has no such entry, but the property read finds the function
inherited from `Object.prototype`, which is truthy; the product of the amount and a function
is `NaN`, and the code stores the text "NaN". -/
theorem convert_inherited_key :
    exampleRates.lookup inheritedState.«to» = none ∧
      exampleRates.get inheritedState.«to» = Property.inherited ∧
      (convert exampleRates inheritedState).convertedAmount =
        Val.str (NumText.ofNumber Num.nan) ∧
      convert exampleRates inheritedState ≠ inheritedState := by
  have hget : exampleRates.get inheritedState.«to» = Property.inherited := by decide
  have hconv : (convert exampleRates inheritedState).convertedAmount =
      Val.str (NumText.ofNumber Num.nan) := by
    unfold convert
    rw [hget]
    rfl
  refine ⟨by decide, hget, hconv, fun h => ?_⟩
  rw [h] at hconv
  cases hconv

end Converter

namespace Blog

variable {Err Obj File : Type}

/-- C8, as the code has it: in each of the seven `async` methods a failure of the SDK call is
logged and kept from the caller, who gets the falsy sentinel `undefined` from `createPost`
and `updatePost` and `false` from `deletePost`, `getPost`, `getPosts`, `uploadFile` and
`deleteFile`; `getFilePreview` has no `try`, logs nothing and hands the failure of its SDK
call on to the caller. -/
theorem failure_contained (svc : Service Err Obj File) (e : Err) :
    (∀ post : NewPost,
        svc.databases.createDocument svc.config.appwriteDatabaseId
            svc.config.appwriteCollectionId post.slug
            { title := post.title, content := post.content,
              featuredImage := post.featuredImage, status := post.status,
              userId := some post.userId } = Except.error e →
          Contained (svc.createPost post) ∧
            (svc.createPost post).result = Except.ok Value.undefined ∧
            (svc.createPost post).log = [("Appwrite service :: createPost :: error", e)]) ∧
      (∀ (slug : String) (post : PostUpdate),
        svc.databases.updateDocument svc.config.appwriteDatabaseId
            svc.config.appwriteCollectionId slug
            { title := post.title, content := post.content,
              featuredImage := post.featuredImage, status := post.status,
              userId := none } = Except.error e →
          Contained (svc.updatePost slug post) ∧
            (svc.updatePost slug post).result = Except.ok Value.undefined ∧
            (svc.updatePost slug post).log =
              [("Appwrite service :: updatePost :: error", e)]) ∧
      (∀ slug : String,
        svc.databases.deleteDocument svc.config.appwriteDatabaseId
            svc.config.appwriteCollectionId slug = Except.error e →
          Contained (svc.deletePost slug) ∧
            (svc.deletePost slug).result = Except.ok (Value.bool false) ∧
            (svc.deletePost slug).log = [("Appwrite service :: deletePost :: error", e)]) ∧
      (∀ slug : String,
        svc.databases.getDocument svc.config.appwriteDatabaseId
            svc.config.appwriteCollectionId slug = Except.error e →
          Contained (svc.getPost slug) ∧
            (svc.getPost slug).result = Except.ok (Value.bool false) ∧
            (svc.getPost slug).log = [("Appwrite service :: getPost :: error", e)]) ∧
      (∀ queries : Option (List Query),
        svc.databases.listDocuments svc.config.appwriteDatabaseId
            svc.config.appwriteCollectionId
            (queries.getD [Query.equal "status" "active"]) = Except.error e →
          Contained (svc.getPosts queries) ∧
            (svc.getPosts queries).result = Except.ok (Value.bool false) ∧
            (svc.getPosts queries).log = [("Appwrite service :: getPosts :: error", e)]) ∧
      (∀ (uniqueId : String) (file : File),
        svc.bucket.createFile svc.config.appwriteBucketId uniqueId file = Except.error e →
          Contained (svc.uploadFile uniqueId file) ∧
            (svc.uploadFile uniqueId file).result = Except.ok (Value.bool false) ∧
            (svc.uploadFile uniqueId file).log =
              [("Appwrite service :: uploadFile :: error", e)]) ∧
      (∀ fileId : String,
        svc.bucket.deleteFile svc.config.appwriteBucketId fileId = Except.error e →
          Contained (svc.deleteFile fileId) ∧
            (svc.deleteFile fileId).result = Except.ok (Value.bool false) ∧
            (svc.deleteFile fileId).log = [("Appwrite service :: deleteFile :: error", e)]) ∧
      (∀ fileId : String,
        svc.bucket.getFilePreview svc.config.appwriteBucketId fileId = Except.error e →
          (svc.getFilePreview fileId).result = Except.error e ∧
            (svc.getFilePreview fileId).log = []) := by
  refine ⟨?_, ?_, ?_, ?_, ?_, ?_, ?_, ?_⟩
  · intro post h
    simp [Service.createPost, h, Contained]
  · intro slug post h
    simp [Service.updatePost, h, Contained]
  · intro slug h
    simp [Service.deletePost, h, Contained]
  · intro slug h
    simp [Service.getPost, h, Contained]
  · intro queries h
    simp [Service.getPosts, h, Contained]
  · intro uniqueId file h
    simp [Service.uploadFile, h, Contained]
  · intro fileId h
    simp [Service.deleteFile, h, Contained]
  · intro fileId h
    simp [Service.getFilePreview, h]

theorem failure_contained_witness :
    (Contained (offlineService.getPost "my-post") ∧
        (offlineService.getPost "my-post").result = Except.ok (Value.bool false) ∧
        (offlineService.getPost "my-post").log =
          [("Appwrite service :: getPost :: error", "offline")]) ∧
      (Contained (offlineService.createPost
          { title := "t", slug := "my-post", content := "c", featuredImage := "f1",
            status := "active", userId := "u1" }) ∧
        (offlineService.createPost
          { title := "t", slug := "my-post", content := "c", featuredImage := "f1",
            status := "active", userId := "u1" }).result = Except.ok Value.undefined ∧
        (offlineService.createPost
          { title := "t", slug := "my-post", content := "c", featuredImage := "f1",
            status := "active", userId := "u1" }).log =
          [("Appwrite service :: createPost :: error", "offline")]) ∧
      (offlineService.getFilePreview "f1").result = Except.error "offline" ∧
      (offlineService.getFilePreview "f1").log = [] :=
  ⟨(failure_contained offlineService "offline").2.2.2.1 "my-post" rfl,
    (failure_contained offlineService "offline").1
      { title := "t", slug := "my-post", content := "c", featuredImage := "f1",
        status := "active", userId := "u1" } rfl,
    (failure_contained offlineService "offline").2.2.2.2.2.2.2 "f1" rfl⟩

/-- C8, as the claim states it, fails for `getFilePreview`: with an SDK whose calls fail
with the error "offline", the method completes with that error and not with a falsy
sentinel. -/
theorem getFilePreview_propagates :
    offlineService.bucket.getFilePreview offlineService.config.appwriteBucketId "f1" =
        Except.error "offline" ∧
      (offlineService.getFilePreview "f1").result = Except.error "offline" ∧
      ¬ Contained (offlineService.getFilePreview "f1") := by
  refine ⟨rfl, rfl, ?_⟩
  intro h
  rcases h with h | h <;> cases h

end Blog
